import Mathlib

/-!
Shallow embedding of the NXP HSE crypto driver core
(`src/core/drivers/crypto/hse/hse_core.c`) and proofs of the spec claims.

Machine integers are modelled as `Nat`; the driver's global mutable state
`struct hse_drvdata` is an explicit state record threaded through each
operation; the MU peripheral is an oracle record of pure functions;
fallible or possibly-undefined behaviour returns `Option`.
-/

namespace Hse

/-! ### Constants

`HSE_NUM_CHANNELS`, `HSE_STREAM_COUNT`, the channel sentinels, descriptor
size and service ids come from headers (`hse_abi.h`, `hse_mu.h`,
configuration) that are not part of the sources; their concrete values are
modelled from the spec (fixed channel count, configured stream count,
"any"/"invalid" sentinels outside the valid index range, channel 0 is the
administrative channel).  No claim depends on the particular numbers. -/

def HSE_NUM_CHANNELS : Nat := 16

def HSE_STREAM_COUNT : Nat := 2

def HSE_CHANNEL_ANY : Nat := 255

def HSE_CHANNEL_INV : Nat := 255

def HSE_CHANNEL_ADM : Nat := 0

def HSE_SRV_DESC_MAX_SIZE : Nat := 256

def HSE_STATUS_INIT_OK : Nat := 256

def HSE_SRV_ID_GET_ATTR : Nat := 20737

def HSE_FW_VERSION_ATTR_ID : Nat := 20

/-! ### TEE result codes (GlobalPlatform standard values) -/

def TEE_SUCCESS : Nat := 0x00000000

def TEE_ERROR_GENERIC : Nat := 0xFFFF0000

def TEE_ERROR_ACCESS_DENIED : Nat := 0xFFFF0001

def TEE_ERROR_CANCEL : Nat := 0xFFFF0002

def TEE_ERROR_BAD_PARAMETERS : Nat := 0xFFFF0006

def TEE_ERROR_BAD_STATE : Nat := 0xFFFF0007

def TEE_ERROR_NOT_SUPPORTED : Nat := 0xFFFF000A

def TEE_ERROR_OUT_OF_MEMORY : Nat := 0xFFFF000C

def TEE_ERROR_BUSY : Nat := 0xFFFF000D

def TEE_ERROR_COMMUNICATION : Nat := 0xFFFF000E

/-! ### HSE service response codes

The numeric values live in `hse_abi.h`, outside the provided sources;
they are modelled from the spec as arbitrary pairwise-distinct codes
(only distinctness is relied upon). -/

def HSE_SRV_RSP_OK : Nat := 1

def HSE_SRV_RSP_VERIFY_FAILED : Nat := 2

def HSE_SRV_RSP_INVALID_ADDR : Nat := 3

def HSE_SRV_RSP_INVALID_PARAM : Nat := 4

def HSE_SRV_RSP_NOT_SUPPORTED : Nat := 5

def HSE_SRV_RSP_NOT_ALLOWED : Nat := 6

def HSE_SRV_RSP_NOT_ENOUGH_SPACE : Nat := 7

def HSE_SRV_RSP_CANCELED : Nat := 8

def HSE_SRV_RSP_KEY_NOT_AVAILABLE : Nat := 9

def HSE_SRV_RSP_KEY_EMPTY : Nat := 10

def HSE_SRV_RSP_KEY_INVALID : Nat := 11

def HSE_SRV_RSP_KEY_WRITE_PROTECTED : Nat := 12

def HSE_SRV_RSP_KEY_UPDATE_ERROR : Nat := 13

/-- `hse_err_decode` — HSE error code translation (hse_core.c lines 58-85):
a `switch` on the service response with a `default` arm. -/
def hse_err_decode (srv_rsp : Nat) : Nat :=
  if srv_rsp = HSE_SRV_RSP_OK then TEE_SUCCESS
  else if srv_rsp = HSE_SRV_RSP_VERIFY_FAILED then TEE_ERROR_COMMUNICATION
  else if srv_rsp = HSE_SRV_RSP_INVALID_ADDR then TEE_ERROR_BAD_PARAMETERS
  else if srv_rsp = HSE_SRV_RSP_INVALID_PARAM then TEE_ERROR_BAD_PARAMETERS
  else if srv_rsp = HSE_SRV_RSP_NOT_SUPPORTED then TEE_ERROR_NOT_SUPPORTED
  else if srv_rsp = HSE_SRV_RSP_NOT_ALLOWED then TEE_ERROR_ACCESS_DENIED
  else if srv_rsp = HSE_SRV_RSP_NOT_ENOUGH_SPACE then TEE_ERROR_OUT_OF_MEMORY
  else if srv_rsp = HSE_SRV_RSP_CANCELED then TEE_ERROR_CANCEL
  else if srv_rsp = HSE_SRV_RSP_KEY_NOT_AVAILABLE then TEE_ERROR_BAD_STATE
  else if srv_rsp = HSE_SRV_RSP_KEY_EMPTY then TEE_ERROR_BAD_STATE
  else if srv_rsp = HSE_SRV_RSP_KEY_INVALID then TEE_ERROR_BAD_STATE
  else if srv_rsp = HSE_SRV_RSP_KEY_WRITE_PROTECTED then TEE_ERROR_BAD_STATE
  else if srv_rsp = HSE_SRV_RSP_KEY_UPDATE_ERROR then TEE_ERROR_BAD_STATE
  else TEE_ERROR_GENERIC

/-! ### Data model -/

/-- `enum hse_ch_type` — designated type of a service channel. -/
inductive HseChType where
  | admin : HseChType
  | shared : HseChType
  | stream : HseChType
deriving DecidableEq, Repr

/-- `enum hse_key_type`: the driver supports the AES ring; any other
key type is unsupported (the `default` arms of the switches). -/
inductive HseKeyType where
  | aes : HseKeyType
  | other : Nat → HseKeyType
deriving DecidableEq, Repr

/-- `struct hse_key` — a key slot: opaque handle, key type, acquired flag. -/
structure HseKey where
  handle : Nat
  type : HseKeyType
  acquired : Bool
deriving DecidableEq, Repr

/-- `struct hse_srv_desc` — the service descriptor envelope.  Only the
service id and the get-attribute request fields are interpreted by this
core; the rest of the union is opaque. -/
structure HseSrvDesc where
  srv_id : Nat
  attr_id : Nat
  attr_len : Nat
  attr : Nat
deriving DecidableEq, Repr

/-- One entry of `drv->srv_desc[]`: descriptor-space virtual address,
DMA address, cached service id, and the bytes currently stored in the
channel's exchange buffer (`content` models the target of the `memcpy`). -/
structure SrvDescSlot where
  ptr : Nat
  dma : Nat
  id : Nat
  content : Option HseSrvDesc
deriving DecidableEq, Repr

/-- `struct hse_attr_fw_version`. -/
structure FwVersion where
  fw_type : Nat
  major : Nat
  minor : Nat
  patch : Nat
deriving DecidableEq, Repr

/-- `struct hse_drvdata` — the driver state.  Arrays indexed by channel are
total functions on `Nat` (only indices `< HSE_NUM_CHANNELS` are ever
meaningful); the AES key ring is an owned array (`none` models a NULL
ring pointer); the spin locks are booleans (`false` = unlocked). -/
structure HseDrvData where
  srv_desc : Nat → SrvDescSlot
  channel_busy : Nat → Bool
  type : Nat → HseChType
  aes_key_ring : Option (List HseKey)
  aes_key_ring_size : Nat
  tx_lock : Bool
  key_ring_lock : Bool
  firmware_version : FwVersion

/-- The MU peripheral capability consumed by the core, as a pure oracle:
descriptor base addresses, status word, and the per-channel send /
message-pending / receive primitives.  `recv` returns
(service response, return code). -/
structure HseMu where
  descBasePtr : Nat
  descBaseDma : Nat
  status : Nat
  send : Nat → Nat → Nat
  pending : Nat → Bool
  recv : Nat → Nat × Nat

/-! ### Operations -/

/-- `hse_sync_srv_desc` (lines 94-102): bounds/NULL guard, then copy the
descriptor into the channel's dedicated buffer and cache the service id.
The `memcpy` target is modelled by the slot's `content` field; the
buffer addresses `ptr`/`dma` are untouched. -/
def hse_sync_srv_desc (drv : HseDrvData) (channel : Nat) (srv_desc : Option HseSrvDesc) :
    HseDrvData :=
  match srv_desc with
  | none => drv
  | some d =>
    if HSE_NUM_CHANNELS ≤ channel then drv
    else
      let slot : SrvDescSlot :=
        ⟨(drv.srv_desc channel).ptr, (drv.srv_desc channel).dma, d.srv_id, some d⟩
      { drv with srv_desc := Function.update drv.srv_desc channel slot }

/-- The scan loop of `hse_next_free_channel` (lines 114-117):
`for (channel = ARRAY_SIZE(drv->type) - 1; channel > 0; channel--)`,
checking `type[channel] == HSE_CH_TYPE_SHARED && !channel_busy[channel]`. -/
def nextFreeAux (ty : Nat → HseChType) (busy : Nat → Bool) : Nat → Nat
  | 0 => HSE_CHANNEL_INV
  | n + 1 =>
    if ty (n + 1) = HseChType.shared ∧ busy (n + 1) = false then n + 1
    else nextFreeAux ty busy n

/-- `hse_next_free_channel` (lines 110-120): find the next available shared
channel, `HSE_CHANNEL_INV` if none available. -/
def hse_next_free_channel (drv : HseDrvData) : Nat :=
  nextFreeAux drv.type drv.channel_busy (HSE_NUM_CHANNELS - 1)

/-- `hse_srv_req_sync` (lines 122-170).  Result `none` models the
non-terminating busy-poll (`while (!hse_mu_msg_pending(mu, channel));`
with the peripheral never reporting a pending message); `some (ret, drv')`
is the returned `TEE_Result` together with the post-state.  The `tx_lock`
critical section is balanced on every path and is not observable in this
sequential model. -/
def hse_srv_req_sync (mu : HseMu) (drv : HseDrvData) (channel : Nat)
    (srv_desc : Option HseSrvDesc) : Option (Nat × HseDrvData) :=
  match srv_desc with
  | none => some (TEE_ERROR_BAD_PARAMETERS, drv)
  | some d =>
    if channel ≠ HSE_CHANNEL_ANY ∧ HSE_NUM_CHANNELS ≤ channel then
      some (TEE_ERROR_BAD_PARAMETERS, drv)
    else
      let c := if channel = HSE_CHANNEL_ANY then hse_next_free_channel drv else channel
      if channel = HSE_CHANNEL_ANY ∧ c = HSE_CHANNEL_INV then
        some (TEE_ERROR_BUSY, drv)
      else if channel ≠ HSE_CHANNEL_ANY ∧ drv.channel_busy channel = true then
        some (TEE_ERROR_BUSY, drv)
      else
        let drv1 : HseDrvData :=
          { drv with channel_busy := Function.update drv.channel_busy c true }
        let drv2 := hse_sync_srv_desc drv1 c (some d)
        let sret := mu.send c (drv2.srv_desc c).dma
        if sret ≠ 0 then some (sret, drv2)
        else if mu.pending c = false then none
        else
          let r := mu.recv c
          if r.2 ≠ 0 then some (r.2, drv2)
          else
            some (hse_err_decode r.1,
              { drv2 with channel_busy := Function.update drv2.channel_busy c false })

/-! ### Key ring -/

/-- `HSE_KEY_HANDLE(group, slot)` — the macro lives in a header outside the
provided sources; modelled from the spec as a deterministic injective
pairing of group id and slot index. -/
def HSE_KEY_HANDLE (group_id idx : Nat) : Nat := group_id * 256 + idx

/-- `hse_key_ring_init` (lines 180-202): reject a zero group size, allocate
the ring (`allocOk` is the `malloc` oracle; `none` models a NULL return),
and populate every slot with its handle, the key type and a clear
acquired flag. -/
def hse_key_ring_init (allocOk : Bool) (t : HseKeyType) (group_id group_size : Nat) :
    Option (List HseKey) :=
  if group_size = 0 then none
  else if allocOk = false then none
  else some ((List.range group_size).map fun i => ⟨HSE_KEY_HANDLE group_id i, t, false⟩)

/-- A pointer to a `struct hse_key`: NULL, `&drv->aes_key_ring[i]`, or a
valid `hse_key` object outside the ring (a "foreign" slot, distinguished
by an opaque tag; its `type` field holds `t`). -/
inductive HsePtr where
  | null : HsePtr
  | ring : Nat → HsePtr
  | foreign : HseKeyType → Nat → HsePtr
deriving DecidableEq, Repr

/-- Write `ring[i].acquired := b` (a store through `&ring[i]`); out-of-range
indices leave the list unchanged (never reached by the driver). -/
def setAcquired (ring : List HseKey) (i : Nat) (b : Bool) : List HseKey :=
  match ring[i]? with
  | some k => ring.set i ⟨k.handle, k.type, b⟩
  | none => ring

/-- The value read by `slot->type`: `none` models the undefined dereference
of a NULL (or dangling) pointer. -/
def slotType (drv : HseDrvData) : HsePtr → Option HseKeyType
  | HsePtr.null => none
  | HsePtr.ring i => (drv.aes_key_ring.bind fun r => r[i]?).map fun k => k.type
  | HsePtr.foreign t _ => some t

/-- `hse_key_slot_acquire` (lines 222-249): switch on the key type (only
AES is supported), then under the key-ring lock linearly scan the first
`aes_key_ring_size` entries for a clear acquired flag, mark it and return
`&key_ring[i]`; NULL if none free.  Result `none` models the undefined
scan of a NULL ring with a non-zero recorded size. -/
def hse_key_slot_acquire (drv : HseDrvData) (t : HseKeyType) :
    Option (HsePtr × HseDrvData) :=
  match t with
  | HseKeyType.aes =>
    match drv.aes_key_ring with
    | none =>
      if drv.aes_key_ring_size = 0 then
        some (HsePtr.null, { drv with key_ring_lock := false })
      else none
    | some ring =>
      match (ring.take drv.aes_key_ring_size).findIdx? (fun k => !k.acquired) with
      | some i =>
        some (HsePtr.ring i,
          { drv with aes_key_ring := some (setAcquired ring i true),
                     key_ring_lock := false })
      | none => some (HsePtr.null, { drv with key_ring_lock := false })
  | HseKeyType.other _ => some (HsePtr.null, drv)

/-- `hse_key_slot_release` (lines 255-279): read `slot->type` (undefined for
a NULL slot — result `none`), switch on it (non-AES types return without
taking the lock), then under the key-ring lock scan indices
`i < aes_key_ring_size` for pointer identity `slot == &key_ring[i]`
(address comparison only — no memory read) and clear the acquired flag of
the matching entry; a slot matching no entry is a silent no-op. -/
def hse_key_slot_release (drv : HseDrvData) (slot : HsePtr) : Option HseDrvData :=
  match slotType drv slot with
  | none => none
  | some HseKeyType.aes =>
    match (List.range drv.aes_key_ring_size).find? (fun j => decide (slot = HsePtr.ring j)) with
    | some i =>
      match drv.aes_key_ring with
      | some ring =>
        some { drv with aes_key_ring := some (setAcquired ring i false),
                        key_ring_lock := false }
      | none => none
    | none => some { drv with key_ring_lock := false }
  | some (HseKeyType.other _) => some drv

/-! ### Initialization -/

/-- `hse_config_channels` (lines 288-310): channel 0 is administrative and
its descriptor space is the MU base; channels `>= HSE_NUM_CHANNELS -
HSE_STREAM_COUNT` are reserved for streaming, the rest are shared; each
channel's descriptor space sits at `offset = channel * HSE_SRV_DESC_MAX_SIZE`
from the base (written pointwise, extensionally equal to the source loop;
indices `>= HSE_NUM_CHANNELS` are outside the array and untouched). -/
def hse_config_channels (mu : HseMu) (drv : HseDrvData) : HseDrvData :=
  let ty : Nat → HseChType := fun channel =>
    if channel = 0 then HseChType.admin
    else if channel < HSE_NUM_CHANNELS then
      if HSE_NUM_CHANNELS - HSE_STREAM_COUNT ≤ channel then HseChType.stream
      else HseChType.shared
    else drv.type channel
  let sd : Nat → SrvDescSlot := fun channel =>
    if channel < HSE_NUM_CHANNELS then
      ⟨mu.descBasePtr + channel * HSE_SRV_DESC_MAX_SIZE,
       mu.descBaseDma + channel * HSE_SRV_DESC_MAX_SIZE,
       (drv.srv_desc channel).id, (drv.srv_desc channel).content⟩
    else drv.srv_desc channel
  { drv with type := ty, srv_desc := sd }

/-- Oracle inputs of one `crypto_driver_init` run: the outcome of each
allocation, the MU link (`none` = `hse_mu_init` failed), the contents of
the freshly `malloc`-ed (hence uninitialized) `drv` instance, the
`hse_buf_alloc` outcome for the version-probe buffer and that buffer's
fields, the version blob the firmware writes into it, and the configured
AES key group id/size. -/
structure InitEnv where
  drvAllocOk : Bool
  drvInitDesc : Nat → SrvDescSlot
  drvInitBusy : Nat → Bool
  drvInitType : Nat → HseChType
  drvInitRing : Option (List HseKey)
  drvInitRingSize : Nat
  drvInitTxLock : Bool
  drvInitKeyLock : Bool
  drvInitFw : FwVersion
  muHandle : Option HseMu
  bufAllocRet : Nat
  bufPaddr : Nat
  bufSize : Nat
  fwBlob : FwVersion
  ringAllocOk : Bool
  aesGroupId : Nat
  aesGroupSize : Nat

/-- `hse_check_fw_version` (lines 317-344): allocate the attribute buffer —
the source assigns the result of `hse_buf_alloc` to `err` and then
overwrites `err` with the request result without ever testing it, so the
allocation outcome is dead here exactly as in the source — build the
get-attribute descriptor, issue it synchronously on the administrative
channel, and on success copy the blob into `drv->firmware_version`. -/
def hse_check_fw_version (env : InitEnv) (mu : HseMu) (drv : HseDrvData) :
    Option (Nat × HseDrvData) :=
  let desc : HseSrvDesc :=
    ⟨HSE_SRV_ID_GET_ATTR, HSE_FW_VERSION_ATTR_ID, env.bufSize, env.bufPaddr⟩
  match hse_srv_req_sync mu drv HSE_CHANNEL_ADM (some desc) with
  | none => none
  | some (err, drv1) =>
    if err ≠ 0 then some (err, drv1)
    else some (TEE_SUCCESS, { drv1 with firmware_version := env.fwBlob })

/-- `crypto_driver_init` (lines 346-391).  Returns the `TEE_Result` paired
with the driver state left in the global `drv` (`none` when initialization
failed before the state was assembled); the outer `none` models the
request's busy-poll never completing. -/
def crypto_driver_init (env : InitEnv) : Option (Nat × Option HseDrvData) :=
  if env.drvAllocOk = false then some (TEE_ERROR_OUT_OF_MEMORY, none)
  else
    match env.muHandle with
    | none => some (TEE_ERROR_GENERIC, none)
    | some mu =>
      if mu.status &&& HSE_STATUS_INIT_OK = 0 then some (TEE_ERROR_BAD_STATE, none)
      else
        let drv0 : HseDrvData :=
          ⟨env.drvInitDesc, env.drvInitBusy, env.drvInitType, env.drvInitRing,
           env.drvInitRingSize, env.drvInitTxLock, env.drvInitKeyLock, env.drvInitFw⟩
        let drv1 := hse_config_channels mu drv0
        let drv2 : HseDrvData := { drv1 with tx_lock := false, key_ring_lock := false }
        match hse_check_fw_version env mu drv2 with
        | none => none
        | some (err, drv3) =>
          if err ≠ 0 then some (err, some drv3)
          else
            let ring := hse_key_ring_init env.ringAllocOk HseKeyType.aes
              env.aesGroupId env.aesGroupSize
            let drv4 : HseDrvData :=
              { drv3 with aes_key_ring := ring, aes_key_ring_size := env.aesGroupSize }
            some (TEE_SUCCESS, some drv4)

/-! ### Fixtures: concrete states used by witnesses -/

/-- A peripheral whose send succeeds, which immediately reports a pending
message, and whose receive returns the OK status. -/
def muOk : HseMu :=
  ⟨4096, 8192, HSE_STATUS_INIT_OK, fun _ _ => 0, fun _ => true,
   fun _ => (HSE_SRV_RSP_OK, 0)⟩

def fwZero : FwVersion := ⟨0, 0, 0, 0⟩

def sdInit : SrvDescSlot := ⟨0, 0, 0, none⟩

/-- A fully configured driver state with every channel idle and no key ring. -/
def drvConf : HseDrvData :=
  hse_config_channels muOk
    ⟨fun _ => sdInit, fun _ => false, fun _ => HseChType.admin, none, 0, false, false, fwZero⟩

/-- `drvConf` with every channel marked busy. -/
def drvAllBusy : HseDrvData := { drvConf with channel_busy := fun _ => true }

/-- `drvConf` with an AES key ring of group id 1 and group size 4. -/
def drvRing4 : HseDrvData :=
  { drvConf with aes_key_ring := hse_key_ring_init true HseKeyType.aes 1 4,
                 aes_key_ring_size := 4 }

/-- A sample service descriptor. -/
def descSample : HseSrvDesc := ⟨7, 0, 0, 0⟩

/-! ### Helper lemmas -/

/-- Specification of the `hse_next_free_channel` scan loop over channels
`1..n`: any returned channel is in range, shared and idle, and the
`HSE_CHANNEL_INV` sentinel comes back exactly when every shared channel in
`1..n` is busy. -/
theorem nextFreeAux_spec (ty : Nat → HseChType) (busy : Nat → Bool) (n : Nat)
    (hn : n < HSE_CHANNEL_INV) :
    (nextFreeAux ty busy n ≠ HSE_CHANNEL_INV →
      1 ≤ nextFreeAux ty busy n ∧ nextFreeAux ty busy n ≤ n ∧
      ty (nextFreeAux ty busy n) = HseChType.shared ∧
      busy (nextFreeAux ty busy n) = false) ∧
    (nextFreeAux ty busy n = HSE_CHANNEL_INV ↔
      ∀ c, 1 ≤ c → c ≤ n → ty c = HseChType.shared → busy c = true) := by
  induction n with
  | zero =>
    refine ⟨fun h => absurd rfl h, ⟨fun _ c hc hc0 _ => by omega, fun _ => rfl⟩⟩
  | succ n ih =>
    have ih' := ih (by omega)
    unfold nextFreeAux
    split
    case isTrue h =>
      refine ⟨fun _ => ⟨by omega, Nat.le_refl _, h.1, h.2⟩, ?_⟩
      constructor
      · intro habs
        exact absurd habs (by unfold HSE_CHANNEL_INV; omega)
      · intro hall
        have := hall (n + 1) (by omega) (Nat.le_refl _) h.1
        rw [h.2] at this
        exact absurd this (by simp)
    case isFalse h =>
      refine ⟨fun hne => ?_, ?_⟩
      · obtain ⟨h1, h2, h3, h4⟩ := ih'.1 hne
        exact ⟨h1, Nat.le_trans h2 (Nat.le_succ n), h3, h4⟩
      · rw [ih'.2]
        constructor
        · intro hall c hc1 hc2 hsh
          rcases Nat.lt_or_ge c (n + 1) with hlt | hge
          · exact hall c hc1 (by omega) hsh
          · have hcn : c = n + 1 := by omega
            subst hcn
            rcases Bool.eq_false_or_eq_true (busy (n + 1)) with hb | hb
            · exact hb
            · exact absurd ⟨hsh, hb⟩ h
        · intro hall c hc1 hc2 hsh
          exact hall c hc1 (Nat.le_trans hc2 (Nat.le_succ n)) hsh

/-- `hse_sync_srv_desc` never changes a channel's buffer addresses. -/
theorem sync_srv_desc_addr (drv : HseDrvData) (c : Nat) (sd : Option HseSrvDesc) (i : Nat) :
    ((hse_sync_srv_desc drv c sd).srv_desc i).ptr = (drv.srv_desc i).ptr ∧
    ((hse_sync_srv_desc drv c sd).srv_desc i).dma = (drv.srv_desc i).dma := by
  cases sd with
  | none => exact ⟨rfl, rfl⟩
  | some d =>
    by_cases hc : HSE_NUM_CHANNELS ≤ c
    · simp [hse_sync_srv_desc, hc]
    · by_cases hic : i = c
      · subst hic
        simp only [hse_sync_srv_desc, if_neg hc]
        simp [Function.update_same]
      · simp only [hse_sync_srv_desc, if_neg hc]
        simp [Function.update_noteq hic]

/-- `hse_sync_srv_desc` only touches the descriptor space: busy flags,
channel types, the key ring and the locks are unchanged. -/
theorem sync_srv_desc_frame (drv : HseDrvData) (c : Nat) (sd : Option HseSrvDesc) :
    (hse_sync_srv_desc drv c sd).channel_busy = drv.channel_busy ∧
    (hse_sync_srv_desc drv c sd).type = drv.type ∧
    (hse_sync_srv_desc drv c sd).aes_key_ring = drv.aes_key_ring ∧
    (hse_sync_srv_desc drv c sd).aes_key_ring_size = drv.aes_key_ring_size := by
  cases sd with
  | none => exact ⟨rfl, rfl, rfl, rfl⟩
  | some d =>
    by_cases hc : HSE_NUM_CHANNELS ≤ c
    · simp [hse_sync_srv_desc, hc]
    · simp [hse_sync_srv_desc, hc]

/-- The thirteen service response codes enumerated by `hse_err_decode`. -/
def hseEnumeratedRsp : List Nat :=
  [HSE_SRV_RSP_OK, HSE_SRV_RSP_VERIFY_FAILED, HSE_SRV_RSP_INVALID_ADDR,
   HSE_SRV_RSP_INVALID_PARAM, HSE_SRV_RSP_NOT_SUPPORTED, HSE_SRV_RSP_NOT_ALLOWED,
   HSE_SRV_RSP_NOT_ENOUGH_SPACE, HSE_SRV_RSP_CANCELED, HSE_SRV_RSP_KEY_NOT_AVAILABLE,
   HSE_SRV_RSP_KEY_EMPTY, HSE_SRV_RSP_KEY_INVALID, HSE_SRV_RSP_KEY_WRITE_PROTECTED,
   HSE_SRV_RSP_KEY_UPDATE_ERROR]

/-- C6: `hse_err_decode` is a total function (each status code maps to
exactly one result, as it is a Lean function): OK maps to Success,
verify-failed to CommFailure, invalid address/parameter to BadParameters,
then Unsupported, AccessDenied, OutOfSpace, Canceled as enumerated; every
key-slot-specific failure code maps to BadState; and every status code not
explicitly enumerated maps to GenericFailure via the default arm. -/
theorem C6_err_decode_total :
    hse_err_decode HSE_SRV_RSP_OK = TEE_SUCCESS ∧
    hse_err_decode HSE_SRV_RSP_VERIFY_FAILED = TEE_ERROR_COMMUNICATION ∧
    hse_err_decode HSE_SRV_RSP_INVALID_ADDR = TEE_ERROR_BAD_PARAMETERS ∧
    hse_err_decode HSE_SRV_RSP_INVALID_PARAM = TEE_ERROR_BAD_PARAMETERS ∧
    hse_err_decode HSE_SRV_RSP_NOT_SUPPORTED = TEE_ERROR_NOT_SUPPORTED ∧
    hse_err_decode HSE_SRV_RSP_NOT_ALLOWED = TEE_ERROR_ACCESS_DENIED ∧
    hse_err_decode HSE_SRV_RSP_NOT_ENOUGH_SPACE = TEE_ERROR_OUT_OF_MEMORY ∧
    hse_err_decode HSE_SRV_RSP_CANCELED = TEE_ERROR_CANCEL ∧
    (∀ r, r ∈ [HSE_SRV_RSP_KEY_NOT_AVAILABLE, HSE_SRV_RSP_KEY_EMPTY,
        HSE_SRV_RSP_KEY_INVALID, HSE_SRV_RSP_KEY_WRITE_PROTECTED,
        HSE_SRV_RSP_KEY_UPDATE_ERROR] → hse_err_decode r = TEE_ERROR_BAD_STATE) ∧
    (∀ r, r ∉ hseEnumeratedRsp → hse_err_decode r = TEE_ERROR_GENERIC) := by
  refine ⟨by decide, by decide, by decide, by decide, by decide, by decide, by decide,
    by decide, by decide, ?_⟩
  intro r hr
  simp only [hseEnumeratedRsp, List.mem_cons, List.not_mem_nil, or_false, not_or] at hr
  obtain ⟨h1, h2, h3, h4, h5, h6, h7, h8, h9, h10, h11, h12, h13⟩ := hr
  simp [hse_err_decode, h1, h2, h3, h4, h5, h6, h7, h8, h9, h10, h11, h12, h13]

/-- Witness for C6: a key-slot failure code maps to BadState and a status
code outside the enumeration hits the default arm. -/
theorem C6_err_decode_total_witness :
    hse_err_decode HSE_SRV_RSP_KEY_EMPTY = TEE_ERROR_BAD_STATE ∧
    hse_err_decode 999 = TEE_ERROR_GENERIC :=
  ⟨C6_err_decode_total.2.2.2.2.2.2.2.2.1 HSE_SRV_RSP_KEY_EMPTY (by decide),
   C6_err_decode_total.2.2.2.2.2.2.2.2.2 999 (by decide)⟩

/-- C5: if `hse_next_free_channel` returns a channel index (not the
`HSE_CHANNEL_INV` sentinel) then that channel is in range, its type is
Shared (hence never Admin, never Stream) and its busy flag is clear; and
it returns the sentinel exactly when every Shared channel is busy.  The
hypothesis that channel 0 is the Admin channel is the partition invariant
established once by `hse_config_channels` and never changed. -/
theorem C5_next_free_channel (drv : HseDrvData)
    (h0 : drv.type 0 = HseChType.admin) :
    (hse_next_free_channel drv ≠ HSE_CHANNEL_INV →
      hse_next_free_channel drv < HSE_NUM_CHANNELS ∧
      drv.type (hse_next_free_channel drv) = HseChType.shared ∧
      drv.channel_busy (hse_next_free_channel drv) = false) ∧
    (hse_next_free_channel drv = HSE_CHANNEL_INV ↔
      ∀ c, c < HSE_NUM_CHANNELS → drv.type c = HseChType.shared →
        drv.channel_busy c = true) := by
  have hs := nextFreeAux_spec drv.type drv.channel_busy (HSE_NUM_CHANNELS - 1)
    (by decide)
  unfold hse_next_free_channel
  constructor
  · intro hne
    obtain ⟨g1, g2, g3, g4⟩ := hs.1 hne
    refine ⟨?_, g3, g4⟩
    have : HSE_NUM_CHANNELS - 1 < HSE_NUM_CHANNELS := by decide
    exact Nat.lt_of_le_of_lt g2 this
  · rw [hs.2]
    constructor
    · intro hall c hc hsh
      rcases Nat.eq_zero_or_pos c with hc0 | hc0
      · subst hc0
        rw [h0] at hsh
        exact absurd hsh (by decide)
      · exact hall c hc0 (by simp only [HSE_NUM_CHANNELS] at hc ⊢; omega) hsh
    · intro hall c hc1 hc2 hsh
      exact hall c (by simp only [HSE_NUM_CHANNELS] at hc2 ⊢; omega) hsh

/-- Witness for C5: in the configured all-busy state, the scan returns the
sentinel. -/
theorem C5_next_free_channel_witness :
    hse_next_free_channel drvAllBusy = HSE_CHANNEL_INV :=
  (C5_next_free_channel drvAllBusy rfl).2.mpr (fun _ _ _ => rfl)

/-- C4: every rejected call of `hse_srv_req_sync` — absent descriptor or
out-of-range explicit channel (BAD_PARAMETERS), no free shared channel for
"any" or explicitly named channel busy (BUSY) — returns with the driver
state completely unchanged (so no channel buffer is written and no busy
flag changes), and the result is the same for every peripheral oracle `mu`
(so the peripheral send operation is never consulted). -/
theorem C4_rejected_no_side_effects (mu : HseMu) (drv : HseDrvData) (channel : Nat)
    (d : HseSrvDesc) :
    (hse_srv_req_sync mu drv channel none = some (TEE_ERROR_BAD_PARAMETERS, drv)) ∧
    (channel ≠ HSE_CHANNEL_ANY → HSE_NUM_CHANNELS ≤ channel →
      hse_srv_req_sync mu drv channel (some d) = some (TEE_ERROR_BAD_PARAMETERS, drv)) ∧
    (hse_next_free_channel drv = HSE_CHANNEL_INV →
      hse_srv_req_sync mu drv HSE_CHANNEL_ANY (some d) = some (TEE_ERROR_BUSY, drv)) ∧
    (channel ≠ HSE_CHANNEL_ANY → channel < HSE_NUM_CHANNELS →
      drv.channel_busy channel = true →
      hse_srv_req_sync mu drv channel (some d) = some (TEE_ERROR_BUSY, drv)) := by
  refine ⟨rfl, ?_, ?_, ?_⟩
  · intro h1 h2
    simp [hse_srv_req_sync, h1, h2]
  · intro h
    simp [hse_srv_req_sync, h]
  · intro h1 h2 h3
    simp [hse_srv_req_sync, h1, Nat.not_le.mpr h2, h3]

/-- Witness for C4: with every channel busy, both the "any" selector and an
explicit busy channel are rejected with `TEE_ERROR_BUSY` and an unchanged
state; an out-of-range explicit channel is rejected with
`TEE_ERROR_BAD_PARAMETERS`. -/
theorem C4_rejected_no_side_effects_witness :
    hse_srv_req_sync muOk drvAllBusy HSE_CHANNEL_ANY (some descSample) =
      some (TEE_ERROR_BUSY, drvAllBusy) ∧
    hse_srv_req_sync muOk drvAllBusy 3 (some descSample) =
      some (TEE_ERROR_BUSY, drvAllBusy) ∧
    hse_srv_req_sync muOk drvAllBusy 20 (some descSample) =
      some (TEE_ERROR_BAD_PARAMETERS, drvAllBusy) :=
  ⟨(C4_rejected_no_side_effects muOk drvAllBusy 3 descSample).2.2.1 rfl,
   (C4_rejected_no_side_effects muOk drvAllBusy 3 descSample).2.2.2
     (by decide) (by decide) rfl,
   (C4_rejected_no_side_effects muOk drvAllBusy 20 descSample).2.1
     (by decide) (by decide)⟩

/-- The channel `hse_srv_req_sync` operates on once past its rejection
checks: the allocator's pick for the "any" selector, the caller's explicit
index otherwise. -/
def chosenChannel (drv : HseDrvData) (channel : Nat) : Nat :=
  if channel = HSE_CHANNEL_ANY then hse_next_free_channel drv else channel

/-- A request that passes the rejection checks: either the "any" selector
with a free shared channel available, or an in-range explicit channel that
is not busy. -/
def selectionOk (drv : HseDrvData) (channel : Nat) : Prop :=
  (channel = HSE_CHANNEL_ANY ∧ hse_next_free_channel drv ≠ HSE_CHANNEL_INV) ∨
  (channel ≠ HSE_CHANNEL_ANY ∧ channel < HSE_NUM_CHANNELS ∧
    drv.channel_busy channel = false)

/-- The driver state right after `hse_srv_req_sync` marks channel `c` busy
and copies descriptor `d` into its buffer (end of step 3 of the protocol). -/
def markedState (drv : HseDrvData) (c : Nat) (d : HseSrvDesc) : HseDrvData :=
  hse_sync_srv_desc
    { drv with channel_busy := Function.update drv.channel_busy c true } c (some d)

/-- The marked state's buffer addresses are the original ones. -/
theorem markedState_dma (drv : HseDrvData) (c : Nat) (d : HseSrvDesc) (i : Nat) :
    ((markedState drv c d).srv_desc i).dma = (drv.srv_desc i).dma :=
  (sync_srv_desc_addr _ c (some d) i).2

/-- The marked state's busy map is the original one with channel `c` set. -/
theorem markedState_busy (drv : HseDrvData) (c : Nat) (d : HseSrvDesc) :
    (markedState drv c d).channel_busy = Function.update drv.channel_busy c true :=
  (sync_srv_desc_frame _ c (some d)).1

/-- The marked channel is busy in the marked state. -/
theorem markedState_busy_c (drv : HseDrvData) (c : Nat) (d : HseSrvDesc) :
    (markedState drv c d).channel_busy c = true := by
  rw [markedState_busy]
  simp [Function.update_same]

/-- The marked state keeps the channel types. -/
theorem markedState_type (drv : HseDrvData) (c : Nat) (d : HseSrvDesc) :
    (markedState drv c d).type = drv.type :=
  (sync_srv_desc_frame _ c (some d)).2.1

/-- The driver state at the end of a fully successful request: the marked
state with the chosen channel's busy flag cleared again (step 7). -/
def finishedState (drv : HseDrvData) (c : Nat) (d : HseSrvDesc) : HseDrvData :=
  { markedState drv c d with channel_busy := Function.update (markedState drv c d).channel_busy c false }

/-- Once the selection succeeds, `hse_srv_req_sync` reduces to the
hardware phase on the chosen channel: from the marked state, send, poll,
receive, clear the busy flag and translate the status. -/
theorem req_sync_selected (mu : HseMu) (drv : HseDrvData) (channel : Nat)
    (d : HseSrvDesc) (hch : selectionOk drv channel) :
    hse_srv_req_sync mu drv channel (some d) =
      (if mu.send (chosenChannel drv channel)
          (drv.srv_desc (chosenChannel drv channel)).dma ≠ 0 then
        some (mu.send (chosenChannel drv channel)
            (drv.srv_desc (chosenChannel drv channel)).dma,
          markedState drv (chosenChannel drv channel) d)
      else if mu.pending (chosenChannel drv channel) = false then none
      else if (mu.recv (chosenChannel drv channel)).2 ≠ 0 then
        some ((mu.recv (chosenChannel drv channel)).2,
          markedState drv (chosenChannel drv channel) d)
      else
        some (hse_err_decode (mu.recv (chosenChannel drv channel)).1,
          finishedState drv (chosenChannel drv channel) d)) := by
  have hdma := markedState_dma drv (chosenChannel drv channel) d
    (chosenChannel drv channel)
  rw [← hdma]
  rcases hch with ⟨h1, h2⟩ | ⟨h1, h2, h3⟩
  · subst h1
    simp [hse_srv_req_sync, chosenChannel, markedState, finishedState, h2]
  · simp [hse_srv_req_sync, chosenChannel, markedState, finishedState, h1,
      Nat.not_le.mpr h2, h3]

/-- The chosen channel of a successful selection is not busy. -/
theorem chosen_not_busy (drv : HseDrvData) (channel : Nat)
    (hch : selectionOk drv channel) :
    drv.channel_busy (chosenChannel drv channel) = false := by
  rcases hch with ⟨h1, h2⟩ | ⟨h1, _, h3⟩
  · subst h1
    have hs := nextFreeAux_spec drv.type drv.channel_busy (HSE_NUM_CHANNELS - 1)
      (by decide)
    exact (hs.1 h2).2.2.2
  · simp [chosenChannel, h1, h3]

/-- A peripheral whose send primitive fails. -/
def muSendFail : HseMu :=
  ⟨4096, 8192, HSE_STATUS_INIT_OK, fun _ _ => TEE_ERROR_COMMUNICATION,
   fun _ => true, fun _ => (HSE_SRV_RSP_OK, 0)⟩

/-- C2: once `hse_srv_req_sync` has marked a channel busy, a failure of the
peripheral send step or of the receive step is returned to the caller
verbatim, and the chosen channel's busy flag is left set on that error
path (the reference behaviour's busy-flag leak). -/
theorem C2_hw_error_leaves_busy_set (mu : HseMu) (drv : HseDrvData) (channel : Nat)
    (d : HseSrvDesc) (hch : selectionOk drv channel) :
    (mu.send (chosenChannel drv channel)
        (drv.srv_desc (chosenChannel drv channel)).dma ≠ 0 →
      ∃ drv', hse_srv_req_sync mu drv channel (some d) =
          some (mu.send (chosenChannel drv channel)
            (drv.srv_desc (chosenChannel drv channel)).dma, drv') ∧
        drv'.channel_busy (chosenChannel drv channel) = true) ∧
    (mu.send (chosenChannel drv channel)
        (drv.srv_desc (chosenChannel drv channel)).dma = 0 →
      mu.pending (chosenChannel drv channel) = true →
      (mu.recv (chosenChannel drv channel)).2 ≠ 0 →
      ∃ drv', hse_srv_req_sync mu drv channel (some d) =
          some ((mu.recv (chosenChannel drv channel)).2, drv') ∧
        drv'.channel_busy (chosenChannel drv channel) = true) := by
  rw [req_sync_selected mu drv channel d hch]
  constructor
  · intro hs
    refine ⟨markedState drv (chosenChannel drv channel) d, ?_,
      markedState_busy_c drv (chosenChannel drv channel) d⟩
    simp [hs]
  · intro h0 hp hrcv
    refine ⟨markedState drv (chosenChannel drv channel) d, ?_,
      markedState_busy_c drv (chosenChannel drv channel) d⟩
    simp [h0, hp, hrcv]

/-- Witness for C2: a send failure on the "any" selector propagates the
error and leaves the chosen channel (13) stuck busy. -/
theorem C2_hw_error_leaves_busy_set_witness :
    ∃ drv', hse_srv_req_sync muSendFail drvConf HSE_CHANNEL_ANY (some descSample) =
        some (TEE_ERROR_COMMUNICATION, drv') ∧
      drv'.channel_busy 13 = true := by
  have h := (C2_hw_error_leaves_busy_set muSendFail drvConf HSE_CHANNEL_ANY descSample
    (Or.inl ⟨rfl, by decide⟩)).1 (by decide)
  exact h

/-- `hse_next_free_channel` depends only on the busy map and the types. -/
theorem next_free_congr (s sx : HseDrvData) (hb : sx.channel_busy = s.channel_busy)
    (ht : sx.type = s.type) : hse_next_free_channel sx = hse_next_free_channel s := by
  unfold hse_next_free_channel
  rw [hb, ht]

/-- C3: when the send and receive steps both succeed, `hse_srv_req_sync`
clears the chosen channel's busy flag before returning (the whole busy map
equals the one before the call), the result is exactly `hse_err_decode` of
the received status code, and a following `submit_request(any, _)` still
finds a free shared channel whenever one existed before the call. -/
theorem C3_success_clears_busy (mu : HseMu) (drv : HseDrvData) (channel : Nat)
    (d : HseSrvDesc) (hch : selectionOk drv channel)
    (hsend : mu.send (chosenChannel drv channel)
      (drv.srv_desc (chosenChannel drv channel)).dma = 0)
    (hpend : mu.pending (chosenChannel drv channel) = true)
    (hrecv : (mu.recv (chosenChannel drv channel)).2 = 0) :
    ∃ drv', hse_srv_req_sync mu drv channel (some d) =
        some (hse_err_decode (mu.recv (chosenChannel drv channel)).1, drv') ∧
      drv'.channel_busy = drv.channel_busy ∧
      drv'.channel_busy (chosenChannel drv channel) = false ∧
      drv'.type = drv.type ∧
      hse_next_free_channel drv' = hse_next_free_channel drv ∧
      (hse_next_free_channel drv ≠ HSE_CHANNEL_INV →
        hse_next_free_channel drv' ≠ HSE_CHANNEL_INV) := by
  have hnb := chosen_not_busy drv channel hch
  have hbusyF : (finishedState drv (chosenChannel drv channel) d).channel_busy =
      drv.channel_busy := by
    show Function.update
      (markedState drv (chosenChannel drv channel) d).channel_busy
      (chosenChannel drv channel) false = drv.channel_busy
    rw [markedState_busy, Function.update_idem]
    conv_lhs => rw [show (false : Bool) = drv.channel_busy (chosenChannel drv channel)
      from hnb.symm]
    exact Function.update_eq_self (chosenChannel drv channel) drv.channel_busy
  have htyF : (finishedState drv (chosenChannel drv channel) d).type = drv.type :=
    markedState_type drv (chosenChannel drv channel) d
  have hnfF := next_free_congr drv (finishedState drv (chosenChannel drv channel) d)
    hbusyF htyF
  refine ⟨finishedState drv (chosenChannel drv channel) d,
    ?_, hbusyF, (congrFun hbusyF (chosenChannel drv channel)).trans hnb,
    htyF, hnfF, ?_⟩
  · rw [req_sync_selected mu drv channel d hch]
    simp [hsend, hpend, hrecv]
  · intro h
    rw [hnfF]
    exact h

/-- Witness for C3: against a peripheral that immediately reports a pending
message and returns status OK, the "any" request completes with
`TEE_SUCCESS`, channel 13 is free again, and a following "any" request
would find a free shared channel. -/
theorem C3_success_clears_busy_witness :
    ∃ drv', hse_srv_req_sync muOk drvConf HSE_CHANNEL_ANY (some descSample) =
        some (TEE_SUCCESS, drv') ∧
      drv'.channel_busy 13 = false ∧
      hse_next_free_channel drv' ≠ HSE_CHANNEL_INV := by
  obtain ⟨drv', h1, _, h3, _, _, h6⟩ := C3_success_clears_busy muOk drvConf
    HSE_CHANNEL_ANY descSample (Or.inl ⟨rfl, by decide⟩) rfl rfl rfl
  exact ⟨drv', h1, h3, h6 (by decide)⟩

/-- The marked state's buffer virtual addresses are the original ones. -/
theorem markedState_ptr (drv : HseDrvData) (c : Nat) (d : HseSrvDesc) (i : Nat) :
    ((markedState drv c d).srv_desc i).ptr = (drv.srv_desc i).ptr :=
  (sync_srv_desc_addr _ c (some d) i).1

/-- Rejection equation: "any" with no free shared channel. -/
theorem req_sync_any_inv (mu : HseMu) (drv : HseDrvData) (d : HseSrvDesc)
    (h : hse_next_free_channel drv = HSE_CHANNEL_INV) :
    hse_srv_req_sync mu drv HSE_CHANNEL_ANY (some d) = some (TEE_ERROR_BUSY, drv) := by
  simp [hse_srv_req_sync, h]

/-- Rejection equation: explicit out-of-range channel. -/
theorem req_sync_oor (mu : HseMu) (drv : HseDrvData) (channel : Nat) (d : HseSrvDesc)
    (h1 : channel ≠ HSE_CHANNEL_ANY) (h2 : HSE_NUM_CHANNELS ≤ channel) :
    hse_srv_req_sync mu drv channel (some d) =
      some (TEE_ERROR_BAD_PARAMETERS, drv) := by
  simp [hse_srv_req_sync, h1, h2]

/-- Rejection equation: explicit busy channel. -/
theorem req_sync_ch_busy (mu : HseMu) (drv : HseDrvData) (channel : Nat) (d : HseSrvDesc)
    (h1 : channel ≠ HSE_CHANNEL_ANY) (h2 : channel < HSE_NUM_CHANNELS)
    (h3 : drv.channel_busy channel = true) :
    hse_srv_req_sync mu drv channel (some d) = some (TEE_ERROR_BUSY, drv) := by
  simp [hse_srv_req_sync, h1, Nat.not_le.mpr h2, h3]

/-- Every state a completed `hse_srv_req_sync` can return keeps the channel
types and every channel's buffer addresses. -/
theorem req_sync_preserves (mu : HseMu) (s : HseDrvData) (ch : Nat)
    (dsc : Option HseSrvDesc) (res : Nat) (sx : HseDrvData)
    (h : hse_srv_req_sync mu s ch dsc = some (res, sx)) :
    sx.type = s.type ∧
    ∀ i, (sx.srv_desc i).ptr = (s.srv_desc i).ptr ∧
      (sx.srv_desc i).dma = (s.srv_desc i).dma := by
  have hself : ∀ u : HseDrvData, u.type = u.type ∧
      ∀ i, (u.srv_desc i).ptr = (u.srv_desc i).ptr ∧
        (u.srv_desc i).dma = (u.srv_desc i).dma :=
    fun u => ⟨rfl, fun i => ⟨rfl, rfl⟩⟩
  have hmk : ∀ c d, (markedState s c d).type = s.type ∧
      ∀ i, ((markedState s c d).srv_desc i).ptr = (s.srv_desc i).ptr ∧
        ((markedState s c d).srv_desc i).dma = (s.srv_desc i).dma :=
    fun c d => ⟨markedState_type s c d,
      fun i => ⟨markedState_ptr s c d i, markedState_dma s c d i⟩⟩
  have hsel : ∀ hch : selectionOk s ch, ∀ d, dsc = some d → sx.type = s.type ∧
      ∀ i, (sx.srv_desc i).ptr = (s.srv_desc i).ptr ∧
        (sx.srv_desc i).dma = (s.srv_desc i).dma := by
    intro hch d hd
    subst hd
    rw [req_sync_selected mu s ch d hch] at h
    split at h
    · simp only [Option.some.injEq, Prod.mk.injEq] at h
      rw [← h.2]
      exact hmk _ d
    · split at h
      · exact absurd h (by simp)
      · split at h
        · simp only [Option.some.injEq, Prod.mk.injEq] at h
          rw [← h.2]
          exact hmk _ d
        · simp only [Option.some.injEq, Prod.mk.injEq] at h
          rw [← h.2]
          exact hmk _ d
  cases dsc with
  | none =>
    simp only [hse_srv_req_sync, Option.some.injEq, Prod.mk.injEq] at h
    rw [← h.2]
    exact hself s
  | some d =>
    by_cases hA : ch = HSE_CHANNEL_ANY
    · subst hA
      by_cases hI : hse_next_free_channel s = HSE_CHANNEL_INV
      · rw [req_sync_any_inv mu s d hI] at h
        simp only [Option.some.injEq, Prod.mk.injEq] at h
        rw [← h.2]
        exact hself s
      · exact hsel (Or.inl ⟨rfl, hI⟩) d rfl
    · by_cases hR : HSE_NUM_CHANNELS ≤ ch
      · rw [req_sync_oor mu s ch d hA hR] at h
        simp only [Option.some.injEq, Prod.mk.injEq] at h
        rw [← h.2]
        exact hself s
      · by_cases hB : s.channel_busy ch = true
        · rw [req_sync_ch_busy mu s ch d hA (Nat.lt_of_not_le hR) hB] at h
          simp only [Option.some.injEq, Prod.mk.injEq] at h
          rw [← h.2]
          exact hself s
        · exact hsel (Or.inr ⟨hA, Nat.lt_of_not_le hR,
            Bool.eq_false_iff.mpr hB⟩) d rfl

/-- `hse_key_slot_acquire` never touches the channel table. -/
theorem acquire_preserves (s : HseDrvData) (t : HseKeyType) (res : HsePtr)
    (sx : HseDrvData) (h : hse_key_slot_acquire s t = some (res, sx)) :
    sx.type = s.type ∧ sx.srv_desc = s.srv_desc ∧
    sx.channel_busy = s.channel_busy := by
  unfold hse_key_slot_acquire at h
  split at h
  · split at h
    · split at h
      · simp only [Option.some.injEq, Prod.mk.injEq] at h
        rw [← h.2]
        exact ⟨rfl, rfl, rfl⟩
      · exact absurd h (by simp)
    · split at h
      · simp only [Option.some.injEq, Prod.mk.injEq] at h
        rw [← h.2]
        exact ⟨rfl, rfl, rfl⟩
      · simp only [Option.some.injEq, Prod.mk.injEq] at h
        rw [← h.2]
        exact ⟨rfl, rfl, rfl⟩
  · simp only [Option.some.injEq, Prod.mk.injEq] at h
    rw [← h.2]
    exact ⟨rfl, rfl, rfl⟩

/-- `hse_key_slot_release` never touches the channel table. -/
theorem release_preserves (s : HseDrvData) (p : HsePtr) (sx : HseDrvData)
    (h : hse_key_slot_release s p = some sx) :
    sx.type = s.type ∧ sx.srv_desc = s.srv_desc ∧
    sx.channel_busy = s.channel_busy := by
  unfold hse_key_slot_release at h
  split at h
  · exact absurd h (by simp)
  · split at h
    · split at h
      · simp only [Option.some.injEq] at h
        rw [← h]
        exact ⟨rfl, rfl, rfl⟩
      · exact absurd h (by simp)
    · simp only [Option.some.injEq] at h
      rw [← h]
      exact ⟨rfl, rfl, rfl⟩
  · simp only [Option.some.injEq] at h
    rw [← h]
    exact ⟨rfl, rfl, rfl⟩

/-- C9: after `hse_config_channels`, channel 0 is Admin, the highest
`HSE_STREAM_COUNT` channels are Stream, every other channel is Shared, and
each channel's buffer virtual and DMA addresses are the base addresses
plus channel index times the maximum descriptor size; and no operation
changes channel types or buffer addresses thereafter (`hse_srv_req_sync`,
`hse_key_slot_acquire` and `hse_key_slot_release` all preserve them, from
any state). -/
theorem C9_channel_partition_invariant (mu : HseMu) (drv : HseDrvData) :
    ((hse_config_channels mu drv).type 0 = HseChType.admin) ∧
    (∀ ch, ch < HSE_NUM_CHANNELS → HSE_NUM_CHANNELS - HSE_STREAM_COUNT ≤ ch →
      (hse_config_channels mu drv).type ch = HseChType.stream) ∧
    (∀ ch, 0 < ch → ch < HSE_NUM_CHANNELS - HSE_STREAM_COUNT →
      (hse_config_channels mu drv).type ch = HseChType.shared) ∧
    (∀ ch, ch < HSE_NUM_CHANNELS →
      ((hse_config_channels mu drv).srv_desc ch).ptr =
        mu.descBasePtr + ch * HSE_SRV_DESC_MAX_SIZE ∧
      ((hse_config_channels mu drv).srv_desc ch).dma =
        mu.descBaseDma + ch * HSE_SRV_DESC_MAX_SIZE) ∧
    (∀ (mux : HseMu) (s : HseDrvData) (ch : Nat) (dsc : Option HseSrvDesc)
        (res : Nat) (sx : HseDrvData),
      hse_srv_req_sync mux s ch dsc = some (res, sx) →
      sx.type = s.type ∧
      ∀ i, (sx.srv_desc i).ptr = (s.srv_desc i).ptr ∧
        (sx.srv_desc i).dma = (s.srv_desc i).dma) ∧
    (∀ (s : HseDrvData) (t : HseKeyType) (res : HsePtr) (sx : HseDrvData),
      hse_key_slot_acquire s t = some (res, sx) →
      sx.type = s.type ∧ sx.srv_desc = s.srv_desc) ∧
    (∀ (s : HseDrvData) (p : HsePtr) (sx : HseDrvData),
      hse_key_slot_release s p = some sx →
      sx.type = s.type ∧ sx.srv_desc = s.srv_desc) := by
  refine ⟨rfl, ?_, ?_, ?_, ?_, ?_, ?_⟩
  · intro ch h1 h2
    have hne : ch ≠ 0 := by
      simp only [HSE_NUM_CHANNELS, HSE_STREAM_COUNT] at h2
      omega
    simp only [hse_config_channels, hne, if_false, h1, if_true]
    simp only [HSE_NUM_CHANNELS, HSE_STREAM_COUNT] at h2 ⊢
    simp [h2, hne]
  · intro ch h1 h2
    have hne : ch ≠ 0 := by omega
    have hlt : ch < HSE_NUM_CHANNELS := by
      simp only [HSE_NUM_CHANNELS, HSE_STREAM_COUNT] at h2 ⊢
      omega
    simp only [hse_config_channels]
    simp only [HSE_NUM_CHANNELS, HSE_STREAM_COUNT] at h2 hlt ⊢
    simp [hne, hlt]
    omega
  · intro ch h1
    simp [hse_config_channels, h1]
  · intro mux s ch dsc res sx h
    exact req_sync_preserves mux s ch dsc res sx h
  · intro s t res sx h
    have hp := acquire_preserves s t res sx h
    exact ⟨hp.1, hp.2.1⟩
  · intro s p sx h
    have hp := release_preserves s p sx h
    exact ⟨hp.1, hp.2.1⟩

/-- Witness for C9: the partition and buffer layout of the concrete
configured state. -/
theorem C9_channel_partition_invariant_witness :
    drvConf.type 0 = HseChType.admin ∧
    drvConf.type 14 = HseChType.stream ∧
    drvConf.type 13 = HseChType.shared ∧
    (drvConf.srv_desc 3).ptr = 4096 + 3 * HSE_SRV_DESC_MAX_SIZE ∧
    (drvConf.srv_desc 3).dma = 8192 + 3 * HSE_SRV_DESC_MAX_SIZE := by
  have h := C9_channel_partition_invariant muOk
    ⟨fun _ => sdInit, fun _ => false, fun _ => HseChType.admin, none, 0, false,
     false, fwZero⟩
  exact ⟨h.1, h.2.1 14 (by decide) (by decide), h.2.2.1 13 (by decide) (by decide),
    (h.2.2.2.1 3 (by decide)).1, (h.2.2.2.1 3 (by decide)).2⟩

/-- Number of currently acquired slots in the AES ring. -/
def acquiredCount (s : HseDrvData) : Nat :=
  ((s.aes_key_ring.getD []).filter (fun k => k.acquired)).length

/-- C7: on a ring of group size 4 with all slots free, four successive
acquires return four pairwise distinct slots, a fifth acquire returns the
NULL sentinel, after releasing one of the four a subsequent acquire
succeeds again, and throughout the ring keeps length 4 and the acquired
count never exceeds 4. -/
theorem C7_key_ring_scenario :
    ∃ s1 s2 s3 s4 s5 s6 s7,
      hse_key_slot_acquire drvRing4 HseKeyType.aes = some (HsePtr.ring 0, s1) ∧
      hse_key_slot_acquire s1 HseKeyType.aes = some (HsePtr.ring 1, s2) ∧
      hse_key_slot_acquire s2 HseKeyType.aes = some (HsePtr.ring 2, s3) ∧
      hse_key_slot_acquire s3 HseKeyType.aes = some (HsePtr.ring 3, s4) ∧
      hse_key_slot_acquire s4 HseKeyType.aes = some (HsePtr.null, s5) ∧
      hse_key_slot_release s5 (HsePtr.ring 1) = some s6 ∧
      hse_key_slot_acquire s6 HseKeyType.aes = some (HsePtr.ring 1, s7) ∧
      (HsePtr.ring 0 ≠ HsePtr.ring 1 ∧ HsePtr.ring 0 ≠ HsePtr.ring 2 ∧
        HsePtr.ring 0 ≠ HsePtr.ring 3 ∧ HsePtr.ring 1 ≠ HsePtr.ring 2 ∧
        HsePtr.ring 1 ≠ HsePtr.ring 3 ∧ HsePtr.ring 2 ≠ HsePtr.ring 3) ∧
      ((drvRing4.aes_key_ring.getD []).length = 4 ∧
        (s1.aes_key_ring.getD []).length = 4 ∧
        (s2.aes_key_ring.getD []).length = 4 ∧
        (s3.aes_key_ring.getD []).length = 4 ∧
        (s4.aes_key_ring.getD []).length = 4 ∧
        (s5.aes_key_ring.getD []).length = 4 ∧
        (s6.aes_key_ring.getD []).length = 4 ∧
        (s7.aes_key_ring.getD []).length = 4) ∧
      (acquiredCount drvRing4 = 0 ∧ acquiredCount s1 = 1 ∧
        acquiredCount s2 = 2 ∧ acquiredCount s3 = 3 ∧ acquiredCount s4 = 4 ∧
        acquiredCount s5 = 4 ∧ acquiredCount s6 = 3 ∧ acquiredCount s7 = 4) := by
  refine ⟨_, _, _, _, _, _, _, rfl, rfl, rfl, rfl, rfl, rfl, rfl,
    ⟨by decide, by decide, by decide, by decide, by decide, by decide⟩,
    ⟨rfl, rfl, rfl, rfl, rfl, rfl, rfl, rfl⟩,
    ⟨rfl, rfl, rfl, rfl, rfl, rfl, rfl, rfl⟩⟩

/-- Characterization of the pointer-identity scan of
`hse_key_slot_release`: scanning `0..n-1` for `slot == &key_ring[j]` finds
exactly the ring index carried by the pointer, when in range. -/
theorem find_range_ring (slot : HsePtr) (n : Nat) :
    (List.range n).find? (fun j => decide (slot = HsePtr.ring j)) =
      (match slot with
       | HsePtr.ring i => if i < n then some i else none
       | _ => none) := by
  induction n with
  | zero => cases slot <;> simp
  | succ n ih =>
    rw [List.range_succ, List.find?_append, ih]
    cases slot with
    | null => simp [List.find?]
    | foreign t tag => simp [List.find?]
    | ring i =>
      by_cases h : i < n
      · have h2 : i < n + 1 := by omega
        simp [h, h2]
      · by_cases h2 : i = n
        · subst h2
          simp [h, List.find?]
        · have h3 : ¬ i < n + 1 := by omega
          simp [h, h3, h2, List.find?]

/-- `setAcquired` keeps the ring's length. -/
theorem setAcquired_length (ring : List HseKey) (i : Nat) (b : Bool) :
    (setAcquired ring i b).length = ring.length := by
  unfold setAcquired
  split
  · exact List.length_set ..
  · rfl

/-- `setAcquired` leaves every other entry untouched. -/
theorem setAcquired_get_ne (ring : List HseKey) (i j : Nat) (b : Bool) (h : j ≠ i) :
    (setAcquired ring i b)[j]? = ring[j]? := by
  unfold setAcquired
  split
  · exact List.getElem?_set_ne (Ne.symm h)
  · rfl

/-- `setAcquired` rewrites only the acquired flag of the target entry. -/
theorem setAcquired_get_self (ring : List HseKey) (i : Nat) (k : HseKey)
    (hk : ring[i]? = some k) (b : Bool) :
    (setAcquired ring i b)[i]? = some ⟨k.handle, k.type, b⟩ := by
  have hi : i < ring.length := by
    by_contra hge
    rw [List.getElem?_eq_none (by omega)] at hk
    cases hk
  unfold setAcquired
  rw [hk]
  exact List.getElem?_set_eq_of_lt _ hi

/-- The ring entry a given index denotes (`none` when the ring pointer is
NULL or the index is outside the array). -/
def ringEntry (s : HseDrvData) (j : Nat) : Option HseKey :=
  s.aes_key_ring.bind fun r => r[j]?

/-- C8: for every valid non-null slot argument, `hse_key_slot_release`
returns normally with the key-ring lock released; it changes at most the
acquired flag of the one ring entry whose identity equals the slot,
clearing it to false; every entry's handle and type, every other entry,
the ring size and the whole channel table are unchanged; and when the
slot's type matches no supported ring, or no entry has that identity
(foreign slot, or index outside the scanned range), the ring is left
completely unchanged (silent no-op). -/
theorem C8_release_frame (drv : HseDrvData) (slot : HsePtr) (t : HseKeyType)
    (hty : slotType drv slot = some t) (hlock : drv.key_ring_lock = false) :
    ∃ drv', hse_key_slot_release drv slot = some drv' ∧
      drv'.key_ring_lock = false ∧
      drv'.channel_busy = drv.channel_busy ∧
      drv'.type = drv.type ∧
      drv'.srv_desc = drv.srv_desc ∧
      drv'.aes_key_ring_size = drv.aes_key_ring_size ∧
      (∀ j, (ringEntry drv' j).map (fun k => k.handle) =
        (ringEntry drv j).map (fun k => k.handle)) ∧
      (∀ j, (ringEntry drv' j).map (fun k => k.type) =
        (ringEntry drv j).map (fun k => k.type)) ∧
      (∀ j, slot ≠ HsePtr.ring j → ringEntry drv' j = ringEntry drv j) ∧
      (∀ i, slot = HsePtr.ring i → i < drv.aes_key_ring_size →
        t = HseKeyType.aes →
        (ringEntry drv' i).map (fun k => k.acquired) = some false) ∧
      (∀ i, slot = HsePtr.ring i → drv.aes_key_ring_size ≤ i →
        drv'.aes_key_ring = drv.aes_key_ring) ∧
      ((∀ i, slot ≠ HsePtr.ring i) → drv'.aes_key_ring = drv.aes_key_ring) ∧
      (t ≠ HseKeyType.aes → drv'.aes_key_ring = drv.aes_key_ring) := by
  cases slot with
  | null => exact absurd hty (by simp [slotType])
  | foreign ft tag =>
    have ht : ft = t := by simpa [slotType] using hty
    subst ht
    cases ft with
    | aes =>
      have hfind : (List.range drv.aes_key_ring_size).find?
          (fun j => decide (HsePtr.foreign HseKeyType.aes tag = HsePtr.ring j)) =
            none := by
        rw [find_range_ring]
      refine ⟨{ drv with key_ring_lock := false }, ?_, rfl, rfl, rfl, rfl, rfl,
        fun j => rfl, fun j => rfl, fun j _ => rfl,
        fun i hi => absurd hi (by simp), fun i hi => absurd hi (by simp),
        fun _ => rfl, fun _ => rfl⟩
      simp only [hse_key_slot_release, slotType, hfind]
    | other n =>
      exact ⟨drv, by simp only [hse_key_slot_release, slotType], hlock, rfl, rfl,
        rfl, rfl, fun j => rfl, fun j => rfl, fun j _ => rfl,
        fun i hi => absurd hi (by simp), fun i hi => absurd hi (by simp),
        fun _ => rfl, fun _ => rfl⟩
  | ring i =>
    cases hring : drv.aes_key_ring with
    | none => simp [slotType, hring] at hty
    | some ring =>
      cases hk : ring[i]? with
      | none => simp [slotType, hring, hk] at hty
      | some k =>
        have hkt : k.type = t := by simpa [slotType, hring, hk] using hty
        have hslot : slotType drv (HsePtr.ring i) = some t := hty
        cases t with
        | other n =>
          refine ⟨drv, ?_, hlock, rfl, rfl, rfl, rfl, fun j => rfl, fun j => rfl,
            fun j _ => rfl, fun i2 _ _ hta => absurd hta (by simp),
            fun i2 _ _ => hring, fun _ => hring, fun _ => hring⟩
          simp only [hse_key_slot_release, hslot]
        | aes =>
          by_cases hsz : i < drv.aes_key_ring_size
          · have hfind : (List.range drv.aes_key_ring_size).find?
                (fun j => decide (HsePtr.ring i = HsePtr.ring j)) = some i := by
              rw [find_range_ring]
              simp [hsz]
            refine ⟨{ drv with aes_key_ring := some (setAcquired ring i false), key_ring_lock := false },
              ?_, rfl, rfl, rfl, rfl, rfl, ?_, ?_, ?_, ?_, ?_, ?_, ?_⟩
            · simp only [hse_key_slot_release, hslot, hfind, hring]
            · intro j
              show ((setAcquired ring i false)[j]?).map (fun k => k.handle) =
                (ringEntry drv j).map (fun k => k.handle)
              by_cases hj : j = i
              · subst hj
                rw [setAcquired_get_self ring j k hk false]
                simp [ringEntry, hring, hk]
              · rw [setAcquired_get_ne ring i j false hj]
                simp [ringEntry, hring]
            · intro j
              show ((setAcquired ring i false)[j]?).map (fun k => k.type) =
                (ringEntry drv j).map (fun k => k.type)
              by_cases hj : j = i
              · subst hj
                rw [setAcquired_get_self ring j k hk false]
                simp [ringEntry, hring, hk]
              · rw [setAcquired_get_ne ring i j false hj]
                simp [ringEntry, hring]
            · intro j hne
              have hj : j ≠ i := fun hji => hne (by rw [hji])
              show (setAcquired ring i false)[j]? = ringEntry drv j
              rw [setAcquired_get_ne ring i j false hj]
              simp [ringEntry, hring]
            · intro i2 heq hlt hta
              have hii : i2 = i := by
                injection heq with h
                exact h.symm
              subst hii
              show ((setAcquired ring i2 false)[i2]?).map (fun k => k.acquired) =
                some false
              rw [setAcquired_get_self ring i2 k hk false]
              rfl
            · intro i2 heq hge
              have hii : i2 = i := by
                injection heq with h
                exact h.symm
              subst hii
              exact absurd hsz (by omega)
            · intro hall
              exact absurd rfl (hall i)
            · intro hta
              exact absurd rfl hta
          · have hfind : (List.range drv.aes_key_ring_size).find?
                (fun j => decide (HsePtr.ring i = HsePtr.ring j)) = none := by
              rw [find_range_ring]
              simp [hsz]
            refine ⟨{ drv with key_ring_lock := false }, ?_, rfl, rfl, rfl, rfl,
              rfl, fun j => rfl, fun j => rfl, fun j _ => rfl, ?_,
              fun i2 _ _ => hring, fun _ => hring, fun _ => hring⟩
            · simp only [hse_key_slot_release, hslot, hfind]
            · intro i2 heq hlt
              have hii : i2 = i := by
                injection heq with h
                exact h.symm
              subst hii
              exact absurd hlt hsz

/-- A ring of two acquired AES slots, for exercising release. -/
def drvRelease : HseDrvData :=
  { drvConf with
      aes_key_ring := some [⟨256, HseKeyType.aes, true⟩, ⟨257, HseKeyType.aes, true⟩],
      aes_key_ring_size := 2 }

/-- Witness for C8: releasing `&ring[0]` of a concrete two-slot ring
succeeds, clears exactly that slot's acquired flag and leaves the other
entry untouched. -/
theorem C8_release_frame_witness :
    ∃ drv', hse_key_slot_release drvRelease (HsePtr.ring 0) = some drv' ∧
      (ringEntry drv' 0).map (fun k => k.acquired) = some false ∧
      ringEntry drv' 1 = ringEntry drvRelease 1 ∧
      drv'.aes_key_ring_size = drvRelease.aes_key_ring_size := by
  obtain ⟨drv', h1, _, _, _, _, h6, _, _, h9, h10, _, _, _⟩ :=
    C8_release_frame drvRelease (HsePtr.ring 0) HseKeyType.aes rfl rfl
  exact ⟨drv', h1, h10 0 rfl (by decide) rfl, h9 1 (by decide), h6⟩

/-- C10: `hse_key_slot_release` reads `slot->type` before any validation,
so a NULL slot dereferences NULL and the call's behaviour is undefined
(modelled as `none`), while every non-null slot — including a foreign one
that matches no ring entry — completes normally (the documented silent
no-op applies only to non-null slots). -/
theorem C10_release_null_undefined (drv : HseDrvData) :
    hse_key_slot_release drv HsePtr.null = none ∧
    (∀ t tag, (hse_key_slot_release drv (HsePtr.foreign t tag)).isSome = true) ∧
    (∀ i k, ringEntry drv i = some k →
      (hse_key_slot_release drv (HsePtr.ring i)).isSome = true) := by
  refine ⟨rfl, ?_, ?_⟩
  · intro t tag
    cases t with
    | aes =>
      have hfind : (List.range drv.aes_key_ring_size).find?
          (fun j => decide (HsePtr.foreign HseKeyType.aes tag = HsePtr.ring j)) =
            none := by
        rw [find_range_ring]
      simp only [hse_key_slot_release, slotType, hfind]
      rfl
    | other n =>
      simp only [hse_key_slot_release, slotType]
      rfl
  · intro i k hk
    obtain ⟨ring, hring, hkk⟩ : ∃ r, drv.aes_key_ring = some r ∧ r[i]? = some k := by
      unfold ringEntry at hk
      cases hr : drv.aes_key_ring with
      | none =>
        rw [hr] at hk
        cases hk
      | some r =>
        rw [hr] at hk
        exact ⟨r, rfl, hk⟩
    have hslot : slotType drv (HsePtr.ring i) = some k.type := by
      simp [slotType, hring, hkk]
    cases hkt : k.type with
    | aes =>
      rw [hkt] at hslot
      by_cases hsz : i < drv.aes_key_ring_size
      · have hfind : (List.range drv.aes_key_ring_size).find?
            (fun j => decide (HsePtr.ring i = HsePtr.ring j)) = some i := by
          rw [find_range_ring]
          simp [hsz]
        simp only [hse_key_slot_release, hslot, hfind, hring]
        rfl
      · have hfind : (List.range drv.aes_key_ring_size).find?
            (fun j => decide (HsePtr.ring i = HsePtr.ring j)) = none := by
          rw [find_range_ring]
          simp [hsz]
        simp only [hse_key_slot_release, hslot, hfind]
        rfl
    | other n =>
      rw [hkt] at hslot
      simp only [hse_key_slot_release, hslot]
      rfl

/-- Witness for C10: on the concrete two-slot state, releasing NULL is
undefined while a valid ring slot and a foreign slot both complete. -/
theorem C10_release_null_undefined_witness :
    hse_key_slot_release drvRelease HsePtr.null = none ∧
    (hse_key_slot_release drvRelease (HsePtr.foreign HseKeyType.aes 99)).isSome
      = true ∧
    (hse_key_slot_release drvRelease (HsePtr.ring 1)).isSome = true :=
  ⟨(C10_release_null_undefined drvRelease).1,
   (C10_release_null_undefined drvRelease).2.1 HseKeyType.aes 99,
   (C10_release_null_undefined drvRelease).2.2 1 ⟨257, HseKeyType.aes, true⟩ rfl⟩

/-- Initialization environment in which every hardware step succeeds and
every allocation succeeds except the `malloc` inside `hse_key_ring_init`
(AES group id 1, group size 4). -/
def envRingAllocFail : InitEnv :=
  ⟨true, fun _ => sdInit, fun _ => false, fun _ => HseChType.admin, none, 0,
   false, false, fwZero, some muOk, 0, 4096, 16, ⟨1, 2, 3, 0⟩, false, 1, 4⟩

/-- C1 (code bug exhibit): when the key-ring allocation fails while
everything else succeeds, `crypto_driver_init` still returns `TEE_SUCCESS`
and reports the module initialized, leaving a NULL AES key ring with a
recorded ring size of 4 — a partial-success startup state.  (The result of
`hse_key_ring_init` is never checked; likewise the `hse_buf_alloc` result
in `hse_check_fw_version` is assigned to `err` and immediately
overwritten.) -/
theorem C1_ring_alloc_failure_ignored :
    ∃ st, crypto_driver_init envRingAllocFail = some (TEE_SUCCESS, some st) ∧
      st.aes_key_ring = none ∧
      st.aes_key_ring_size = 4 ∧
      hse_key_ring_init envRingAllocFail.ringAllocOk HseKeyType.aes
        envRingAllocFail.aesGroupId envRingAllocFail.aesGroupSize = none :=
  ⟨_, rfl, rfl, rfl, rfl⟩

end Hse
